import Mathlib

/-!
Shallow embedding of the candidate-session-manager backend
(src/backend/candidate_sessions/{models,serializers,views}.py and the parts of
src/backend/users/models.py they read), together with theorems settling the
claims about it.

Conventions of the embedding:
* database rows are Lean structures, tables are `List`s of rows;
* primary keys are `Nat`; freshly inserted rows take their id from an explicit
  counter threaded through each operation (Django's autoincrement pk);
* timestamps and dates are `Int` (a date such as 2024-06-01 is written as the
  literal 20240601; only order matters to the claims);
* Python `None` becomes `Option.none`; the default empty JSON dict/list, which
  is falsy in Python, also becomes `none` where the code tests truthiness;
* a Django REST framework validation error is an explicit `Except` error value
  carrying the field key the error is reported under.
-/

namespace CSM

/-- A user account (users/models.py `User`): only the columns the
candidate-session code reads.  `user_type` is one of
candidate/faculty/admin/superadmin; `room_number` is a nullable CharField. -/
structure User where
  id : Nat
  user_type : String
  first_name : String
  last_name : String
  room_number : Option String
  deriving Repr, DecidableEq

/-- Property `User.is_admin` (users/models.py): `user_type in ['admin', 'superadmin']`. -/
def User.is_admin (u : User) : Bool :=
  u.user_type == "admin" || u.user_type == "superadmin"

/-- A `SessionTimeSlot` row (candidate_sessions/models.py).  `end_time` is
nullable; `max_attendees` is a PositiveIntegerField defaulting to 1. -/
structure SessionTimeSlot where
  id : Nat
  candidate_section : Nat
  start_time : Int
  end_time : Option Int
  max_attendees : Nat
  location : String
  description : String
  is_visible : Bool
  deriving Repr, DecidableEq

/-- A `SessionAttendee` row: the (time_slot, user) join table. -/
structure SessionAttendee where
  id : Nat
  time_slot : Nat
  user : Nat
  deriving Repr, DecidableEq

/-- Property `SessionTimeSlot.available_slots` (models.py lines 70-73):
`max_attendees - self.attendees.count()`.  Python integers may go negative, so
the result is an `Int`.  `attendees` is the whole attendee table; the related
manager filters it to this slot's rows. -/
def SessionTimeSlot.available_slots (s : SessionTimeSlot)
    (attendees : List SessionAttendee) : Int :=
  (s.max_attendees : Int) -
    ((attendees.filter (fun a => a.time_slot == s.id)).length : Int)

/-- Property `SessionTimeSlot.is_full` (models.py lines 75-78):
`available_slots <= 0`. -/
def SessionTimeSlot.is_full (s : SessionTimeSlot)
    (attendees : List SessionAttendee) : Bool :=
  decide (s.available_slots attendees ≤ 0)

/-- The ways an attendee row can be created or deleted through the API
(SessionAttendeeViewSet CRUD, the register/unregister actions, availability
import): every path either inserts one row or deletes one row by pk. -/
inductive AttendeeOp where
  | create (a : SessionAttendee)
  | delete (id : Nat)
  deriving Repr, DecidableEq

/-- Effect of one attendee create/delete on the attendee table. -/
def applyAttendeeOp (attendees : List SessionAttendee) : AttendeeOp → List SessionAttendee
  | .create a => attendees ++ [a]
  | .delete i => attendees.eraseP (fun a => a.id == i)

/-- Outcome of the `register` action, tagged with the HTTP class the view
returns (403 forbidden, 400 bad request, 201 created). -/
inductive RegisterOutcome where
  | forbidden (error : String)
  | badRequest (error : String)
  | created (attendee : SessionAttendee)
  deriving Repr, DecidableEq

/-- Whether `user` already holds an attendee row for `slot`
(`SessionAttendee.objects.filter(time_slot=..., user=...).exists()`). -/
def isRegistered (user : User) (slot : SessionTimeSlot)
    (attendees : List SessionAttendee) : Bool :=
  attendees.any (fun a => a.time_slot == slot.id && a.user == user.id)

/-- Action `SessionTimeSlotViewSet.register` (views.py lines 211-237): candidates are
rejected with 403; then the slot's `is_full` is checked; then an existing
registration is checked; otherwise one attendee row is inserted and returned.
Returns the outcome together with the resulting attendee table and pk counter. -/
def SessionTimeSlotViewSet.register (user : User) (slot : SessionTimeSlot)
    (attendees : List SessionAttendee) (nextId : Nat) :
    RegisterOutcome × List SessionAttendee × Nat :=
  if user.user_type == "candidate" then
    (.forbidden "Candidates cannot register for sessions", attendees, nextId)
  else if slot.is_full attendees then
    (.badRequest "Time slot is full", attendees, nextId)
  else if isRegistered user slot attendees then
    (.badRequest "Already registered for this time slot", attendees, nextId)
  else
    let a : SessionAttendee := ⟨nextId, slot.id, user.id⟩
    (.created a, attendees ++ [a], nextId + 1)

/-- Action `SessionTimeSlotViewSet.unregister` (views.py lines 239-252):
`get_object_or_404` on the (slot, user) attendee row — 404 when absent —
then the row is deleted (204). -/
def SessionTimeSlotViewSet.unregister (user : User) (slot : SessionTimeSlot)
    (attendees : List SessionAttendee) : Except String (List SessionAttendee) :=
  if isRegistered user slot attendees then
    .ok (attendees.eraseP (fun a => a.time_slot == slot.id && a.user == user.id))
  else
    .error "Not found"

/-- A DRF validation error: the field key it is reported under and the message. -/
structure ValidationError where
  key : String
  message : String
  deriving Repr, DecidableEq

/-- An option payload nested under a form-field payload
(FormFieldOptionSerializer input).  The id is optional: present when the
client round-trips a previously fetched option. -/
structure OptionPayload where
  id : Option Nat
  label : String
  order : Int
  deriving Repr, DecidableEq

/-- The field types whose membership test `field_type in ['select', 'radio',
'checkbox']` recurs through serializers.py. -/
def isChoiceType (t : String) : Bool :=
  t == "select" || t == "radio" || t == "checkbox"

/-- Validator `FormFieldSerializer.validate` (serializers.py lines 255-273): select,
radio and checkbox fields require at least one option; date_range fields must
not carry options; every other type is unconstrained. -/
def FormFieldSerializer.validate (type : String) (options : List OptionPayload) :
    Except ValidationError Unit :=
  if isChoiceType type then
    if options.isEmpty then
      .error ⟨"options", "Options are required for " ++ type ++ " type fields"⟩
    else .ok ()
  else if type == "date_range" then
    if !options.isEmpty then
      .error ⟨"options", "Options are not allowed for date range fields"⟩
    else .ok ()
  else .ok ()

/-- A `Session` row (the recruiting season): only the columns the time-slot
claims read. -/
structure Session where
  id : Nat
  start_date : Int
  end_date : Int
  deriving Repr, DecidableEq

/-- The write payload of `SessionTimeSlotCreateSerializer`. -/
structure TimeSlotPayload where
  candidate_section : Nat
  start_time : Option Int
  end_time : Option Int
  max_attendees : Nat
  location : String
  description : String
  is_visible : Bool
  deriving Repr, DecidableEq

/-- Validator `SessionTimeSlotCreateSerializer.validate` (serializers.py lines 159-171):
the only check performed is that, when both bounds are given, the end time is
strictly after the start time; the error is keyed to `end_time`.  The
serializer receives no Session and performs no comparison against the parent
Session's date window. -/
def SessionTimeSlotCreateSerializer.validate (data : TimeSlotPayload) :
    Except ValidationError TimeSlotPayload :=
  match data.start_time, data.end_time with
  | some s, some e =>
      if e ≤ s then .error ⟨"end_time", "End time must be after start time."⟩
      else .ok data
  | _, _ => .ok data

/-- A `FormFieldOption` row. -/
structure FormFieldOption where
  id : Nat
  label : String
  order : Int
  deriving Repr, DecidableEq

/-- A `FormField` row with its owned options (the `options` related manager). -/
structure FormField where
  id : Nat
  type : String
  label : String
  required : Bool
  help_text : String
  order : Int
  options : List FormFieldOption
  deriving Repr, DecidableEq

/-- A `Form` row with its owned fields (`form_fields`) and the `assigned_to`
many-to-many user ids. -/
structure Form where
  id : Nat
  title : String
  description : String
  is_active : Bool
  assigned_to : List Nat
  form_fields : List FormField
  deriving Repr, DecidableEq

/-- A form-field payload nested under a form payload (FormFieldSerializer
input).  The id is optional: present when the client round-trips a previously
fetched field. -/
structure FieldPayload where
  id : Option Nat
  type : String
  label : String
  required : Bool
  help_text : String
  order : Int
  options : List OptionPayload
  deriving Repr, DecidableEq

/-- The write payload of `FormSerializer` for update.  `assigned_to_ids` is an
optional write-only list; the nested `form_fields` list carries the field
payloads. -/
structure FormPayload where
  title : String
  description : String
  is_active : Bool
  assigned_to_ids : Option (List Nat)
  form_fields : List FieldPayload
  deriving Repr, DecidableEq

/-- One in-place option update inside `FormFieldSerializer.update`
(serializers.py lines 310-315): setattr of the submitted attributes on the
matched row (re-assigning the id to itself has no effect). -/
def applyOptionData (opt : FormFieldOption) (p : OptionPayload) : FormFieldOption :=
  { opt with label := p.label, order := p.order }

/-- The option-reconciliation loop of `FormFieldSerializer.update`
(serializers.py lines 304-319): for each submitted option, a truthy id that
matches a pre-existing option updates that row in place; anything else creates
a new row (`FormFieldOption.objects.create(field=instance, **option_data)`
inserts with the explicit id when one is supplied, otherwise the next
autoincrement id).  Returns the evolved option table, the ids marked updated,
the created rows, and the pk counter.

Reachability caveat: `FormFieldOptionSerializer` lists `id` in
`read_only_fields` (serializers.py line 241) and DRF drops read-only fields
from `validated_data`, so through the API `option_data.get('id')` is always
`None` and only the `none` (create) branch runs; the `some`-id branch is
reachable only when the serializer's update is invoked directly on handcrafted
data, as the repository's tests do.  `stripNestedIds` below models the
API-side stripping. -/
def optionReconcileLoop (existingIds : List Nat) :
    List OptionPayload → List FormFieldOption → List Nat → List FormFieldOption →
      Nat → (List FormFieldOption × List Nat × List FormFieldOption × Nat)
  | [], opts, updated, created, fresh => (opts, updated, created, fresh)
  | p :: rest, opts, updated, created, fresh =>
    match p.id with
    | some oid =>
      if oid ≠ 0 ∧ existingIds.contains oid then
        let opts' := opts.map (fun o => if o.id == oid then applyOptionData o p else o)
        optionReconcileLoop existingIds rest opts' (updated ++ [oid]) created fresh
      else
        optionReconcileLoop existingIds rest opts updated
          (created ++ [⟨oid, p.label, p.order⟩]) fresh
    | none =>
      optionReconcileLoop existingIds rest opts updated
        (created ++ [⟨fresh, p.label, p.order⟩]) (fresh + 1)

/-- Method `FormFieldSerializer.update` (serializers.py lines 290-326): setattr of the
submitted field attributes, then — only when the (new) type is
select/radio/checkbox — reconcile the options against `options_data` and
delete every pre-existing option that was not updated.  `options_data` is
whatever survived into `validated_data` (nothing, when the caller popped the
options first, as `FormSerializer.update` does).  The submitted attributes are
passed without their popped `options` key. -/
def FormFieldSerializer.update (row : FormField) (data : FieldPayload)
    (options_data : List OptionPayload) (fresh : Nat) : FormField × Nat :=
  let inst := { row with
      type := data.type, label := data.label, required := data.required,
      help_text := data.help_text, order := data.order }
  if isChoiceType inst.type then
    let existingIds := inst.options.map (·.id)
    let (opts, updated, created, fresh') :=
      optionReconcileLoop existingIds options_data inst.options [] [] fresh
    let kept := opts.filter (fun o => !(existingIds.contains o.id) || updated.contains o.id)
    ({ inst with options := kept ++ created }, fresh')
  else
    (inst, fresh)

/-- Option creation for a newly created field inside `FormSerializer.update`
(serializers.py lines 402-404): each popped option payload becomes a new row,
with the explicit id when one was supplied, otherwise the next autoincrement
id. -/
def createOptionRows : List OptionPayload → Nat → (List FormFieldOption × Nat)
  | [], fresh => ([], fresh)
  | p :: rest, fresh =>
    match p.id with
    | some oid =>
      let (os, fresh') := createOptionRows rest fresh
      (⟨oid, p.label, p.order⟩ :: os, fresh')
    | none =>
      let (os, fresh') := createOptionRows rest (fresh + 1)
      (⟨fresh, p.label, p.order⟩ :: os, fresh')

/-- The field-reconciliation loop of `FormSerializer.update` (serializers.py
lines 382-404): for each submitted field payload the nested options are popped
first; a truthy id matching a pre-existing field re-runs `FormFieldSerializer`
validation on the remaining data (with the options key now absent, i.e. `[]`)
and applies `FormFieldSerializer.update` only when that validation passes —
`if field_serializer.is_valid(): field_serializer.save()` silently skips an
invalid payload — and in either case marks the id updated; anything else
creates a new field row from the popped payload (explicit id when supplied)
together with its options.  Returns the evolved field table, the ids marked
updated, and the pk counter.

Reachability caveat: `FormFieldSerializer` lists `id` in `read_only_fields`
(serializers.py line 253) and DRF drops read-only fields from
`validated_data`, so through the API `field_data.get('id')` is always `None`
and only the `none` (create) branch runs — every submitted field is recreated
under a fresh pk and the old rows are swept by the delete pass.  The
`some`-id branches are reachable only when `FormSerializer.update` is invoked
directly on handcrafted data, as the repository's tests do.  `stripNestedIds`
below models the API-side stripping. -/
def formUpdateLoop (existingIds : List Nat) :
    List FieldPayload → List FormField → List Nat → Nat →
      (List FormField × List Nat × Nat)
  | [], fields, updated, fresh => (fields, updated, fresh)
  | p :: rest, fields, updated, fresh =>
    match p.id with
    | some fid =>
      if fid ≠ 0 ∧ existingIds.contains fid then
        match FormFieldSerializer.validate p.type [] with
        | .ok _ =>
          let fields' := fields.map (fun g =>
            if g.id == fid then (FormFieldSerializer.update g p [] fresh).1 else g)
          formUpdateLoop existingIds rest fields' (updated ++ [fid]) fresh
        | .error _ =>
          formUpdateLoop existingIds rest fields (updated ++ [fid]) fresh
      else
        let (newOpts, fresh1) := createOptionRows p.options fresh
        let newField : FormField :=
          ⟨fid, p.type, p.label, p.required, p.help_text, p.order, newOpts⟩
        formUpdateLoop existingIds rest (fields ++ [newField])
          (updated ++ [fid]) fresh1
    | none =>
      let (newOpts, fresh1) := createOptionRows p.options (fresh + 1)
      let newField : FormField :=
        ⟨fresh, p.type, p.label, p.required, p.help_text, p.order, newOpts⟩
      formUpdateLoop existingIds rest (fields ++ [newField])
        (updated ++ [newField.id]) fresh1

/-- Method `FormSerializer.update` (serializers.py lines 374-420): reconcile the
nested fields against the payload, delete every pre-existing field whose id
was not marked updated, replace the assigned users when `assigned_to_ids` was
supplied, and setattr the remaining form attributes.  This is the update
method itself, applied to whatever `validated_data` it is handed; the API
path, where DRF has already stripped the read-only nested ids, is
`formUpdateApi` below. -/
def FormSerializer.update (form : Form) (payload : FormPayload) (fresh : Nat) :
    Form × Nat :=
  let existingIds := form.form_fields.map (·.id)
  let (fields1, updatedIds, fresh') :=
    formUpdateLoop existingIds payload.form_fields form.form_fields [] fresh
  let fields2 := fields1.filter (fun g =>
    !(existingIds.contains g.id) || updatedIds.contains g.id)
  let assigned := (payload.assigned_to_ids).getD form.assigned_to
  ({ form with
      title := payload.title, description := payload.description,
      is_active := payload.is_active, assigned_to := assigned,
      form_fields := fields2 }, fresh')

/-- The representation a GET of the form returns for one option, used to build
a round-trip update payload (option ids round-tripped). -/
def FormFieldOption.toPayload (o : FormFieldOption) : OptionPayload :=
  ⟨some o.id, o.label, o.order⟩

/-- The representation a GET of the form returns for one field (field id
round-tripped, nested options included). -/
def FormField.toPayload (f : FormField) : FieldPayload :=
  ⟨some f.id, f.type, f.label, f.required, f.help_text, f.order,
    f.options.map FormFieldOption.toPayload⟩

/-- An update payload built, unchanged, from a freshly fetched representation
of the form.  The write-only `assigned_to_ids` does not appear in the fetched
representation, so it is absent. -/
def Form.toPayload (f : Form) : FormPayload :=
  ⟨f.title, f.description, f.is_active, none,
    f.form_fields.map FormField.toPayload⟩

/-- The id stripping DRF performs while validating a nested form payload:
`FormFieldSerializer` and `FormFieldOptionSerializer` both list `id` in
`read_only_fields` (serializers.py lines 253 and 241), and read-only fields
never enter `validated_data`, so every nested `id` key the client submitted —
round-tripped or not — is dropped before `FormSerializer.update` runs. -/
def stripNestedIds (p : FormPayload) : FormPayload :=
  { p with
      form_fields := p.form_fields.map (fun f =>
        { f with
            id := none,
            options := f.options.map (fun o => { o with id := none }) }) }

/-- The nested half of `FormSerializer.is_valid()`: every submitted field
payload runs through `FormFieldSerializer.validate` (the ListSerializer
validates each child), and the first field-level error rejects the whole
payload. -/
def validateFieldPayloads : List FieldPayload → Except ValidationError Unit
  | [] => .ok ()
  | f :: rest =>
    match FormFieldSerializer.validate f.type f.options with
    | .error e => .error e
    | .ok _ => validateFieldPayloads rest

/-- A PUT of a form through the API (`FormViewSet` → `FormSerializer`): DRF
validates the payload — running the nested field validation and stripping the
read-only nested ids — and only then calls `FormSerializer.update` on the
resulting `validated_data`. -/
def formUpdateApi (form : Form) (p : FormPayload) (fresh : Nat) :
    Except ValidationError (Form × Nat) :=
  match validateFieldPayloads p.form_fields with
  | .error e => .error e
  | .ok _ => .ok (FormSerializer.update form (stripNestedIds p) fresh)

/-- The metadata frozen per field in a submission's `form_version` snapshot
(models.py lines 204-214): `{type, label, required}`. -/
structure FieldMeta where
  type : String
  label : String
  required : Bool
  deriving Repr, DecidableEq

/-- The `form_version` snapshot: `{'fields': {field_id: metadata}}`. -/
structure FormVersion where
  fields : List (Nat × FieldMeta)
  deriving Repr, DecidableEq

/-- A `FormSubmission` row.  `answers` maps field-id strings to answer values
(values abstracted to strings; no claim inspects them).  `form_version` is a
JSONField defaulting to the falsy `{}`, modelled as `none`. -/
structure FormSubmission where
  id : Nat
  form : Nat
  submitted_by : Nat
  answers : List (String × String)
  is_completed : Bool
  form_version : Option FormVersion
  deriving Repr, DecidableEq

/-- Method `FormSubmission.save` (models.py lines 198-215): when `form_version` is
still falsy, freeze the parent form's current field set into it; otherwise
leave it untouched; then persist.  `form_fields` is the parent form's current
field list. -/
def FormSubmission.save (form_fields : List FormField) (sub : FormSubmission) :
    FormSubmission :=
  if sub.form_version.isNone then
    { sub with
        form_version :=
          some ⟨form_fields.map (fun fl => (fl.id, ⟨fl.type, fl.label, fl.required⟩))⟩ }
  else sub

/-- Methods `FormSubmissionViewSet.perform_create` plus `FormSubmissionSerializer.create`
(views.py lines 453-474, serializers.py lines 473-491): reject when the caller
is not in the form's assigned set; reject when a completed submission for
(form, caller) already exists — the same existence check appears in both the
view and the serializer; otherwise insert the new row, whose first save
freezes `form_version`. -/
def formSubmissionCreate (store : List FormSubmission) (form : Form)
    (user : Nat) (answers : List (String × String)) (is_completed : Bool)
    (nextId : Nat) : Except String (List FormSubmission × Nat) :=
  if !(form.assigned_to.contains user) then
    .error "You are not assigned to this form"
  else if store.any (fun s =>
      s.form == form.id && s.submitted_by == user && s.is_completed) then
    .error "You have already submitted this form"
  else
    let sub := FormSubmission.save form.form_fields
      ⟨nextId, form.id, user, answers, is_completed, none⟩
    .ok (store ++ [sub], nextId + 1)

/-- A PUT/PATCH of a submission through the API: `FormSubmissionSerializer`
defines no custom update, so DRF's ModelSerializer default applies — setattr
of the writable payload fields (`form`, `answers`, `is_completed`;
`submitted_by`, `submitted_at` and `form_version` are read-only) followed by
`instance.save()`.  Neither the serializer, the view (no `perform_update`),
nor `save` re-checks completed-uniqueness on this path: `FormSubmission.clean`
exists but is never invoked by it.  `none` payload entries model fields absent
from a PATCH payload. -/
def formSubmissionUpdate (store : List FormSubmission)
    (form_fields : List FormField) (pk : Nat) (newForm : Option Nat)
    (newAnswers : Option (List (String × String))) (newCompleted : Option Bool) :
    List FormSubmission :=
  store.map (fun s =>
    if s.id == pk then
      FormSubmission.save form_fields
        { s with
            form := newForm.getD s.form,
            answers := newAnswers.getD s.answers,
            is_completed := newCompleted.getD s.is_completed }
    else s)

/-- The number of completed submissions a (form, user) pair holds. -/
def completedCount (store : List FormSubmission) (formId userId : Nat) : Nat :=
  (store.filter (fun s =>
    s.form == formId && s.submitted_by == userId && s.is_completed)).length

/-- A `CandidateSection` row: only the columns the import claims read.
`imported_availability_ids` is a JSONField with default `list` but also
`null=True`; `none` models SQL null, which `import_slots` normalizes. -/
structure CandidateSection where
  id : Nat
  session : Nat
  candidate : Nat
  imported_availability_ids : Option (List Nat)
  deriving Repr, DecidableEq

/-- An `AvailabilityTimeSlot` row: one interval of a faculty availability. -/
structure AvailabilityTimeSlot where
  id : Nat
  availability : Nat
  start_time : Int
  end_time : Int
  deriving Repr, DecidableEq

/-- The slice of database state `import_slots` reads and writes. -/
structure ImportState where
  candidate_section : CandidateSection
  time_slots : List SessionTimeSlot
  attendees : List SessionAttendee
  nextId : Nat
  deriving Repr, DecidableEq

/-- The 201 response body of `import_slots` (message text elided). -/
structure ImportResponse where
  created_time_slots : List Nat
  imported_availability_ids : List Nat
  deriving Repr, DecidableEq

/-- The slot-creation loop of `import_slots` (views.py lines 559-577): for
every availability time slot, insert a `SessionTimeSlot` on the section with
`max_attendees = 1`, location defaulted from the faculty member's room
(`faculty.room_number or ''`), a description naming the faculty member and
`is_visible = True`, then auto-register the faculty member as an attendee.
Returns the created slots, the created attendee rows, the created slot ids
and the advanced pk counter. -/
def importLoop (faculty : User) (sectionId : Nat) :
    List AvailabilityTimeSlot → Nat →
      (List SessionTimeSlot × List SessionAttendee × List Nat × Nat)
  | [], n => ([], [], [], n)
  | ts :: rest, n =>
    let newSlot : SessionTimeSlot :=
      ⟨n, sectionId, ts.start_time, some ts.end_time, 1,
        faculty.room_number.getD "",
        "Meeting with " ++ faculty.first_name ++ " " ++ faculty.last_name, true⟩
    let newAtt : SessionAttendee := ⟨n + 1, newSlot.id, faculty.id⟩
    let prev := importLoop faculty sectionId rest (n + 2)
    (newSlot :: prev.1, newAtt :: prev.2.1, newSlot.id :: prev.2.2.1, prev.2.2.2)

/-- Action `FacultyAvailabilityViewSet.import_slots` (views.py lines 532-586): 403
unless the caller is admin; a null imported-ids list is normalized to `[]`;
the availability id `pk` is appended only when not already present; then one
new slot and one faculty attendee row are created per availability time slot.
`faculty` is the availability's faculty member; `availability_slots` its time
slots. -/
def import_slots (user faculty : User)
    (availability_slots : List AvailabilityTimeSlot) (pk : Nat)
    (st : ImportState) : Except String (ImportResponse × ImportState) :=
  if !user.is_admin then
    .error "Only admins can import faculty availability"
  else
    let ids0 := st.candidate_section.imported_availability_ids.getD []
    let ids1 := if ids0.contains pk then ids0 else ids0 ++ [pk]
    let section1 := { st.candidate_section with imported_availability_ids := some ids1 }
    let r := importLoop faculty section1.id availability_slots st.nextId
    .ok (⟨r.2.2.1, ids1⟩,
      ⟨section1, st.time_slots ++ r.1, st.attendees ++ r.2.1, r.2.2.2⟩)

/-- An `AvailabilityInvitation` row: the (faculty, candidate_section) join —
`unique_together` on that pair — with creator attribution and the email flag. -/
structure AvailabilityInvitation where
  id : Nat
  faculty : Nat
  candidate_section : Nat
  created_by : Nat
  email_sent : Bool
  deriving Repr, DecidableEq

/-- The (faculty, candidate_section) key an invitation row is unique on. -/
def pairKey (i : AvailabilityInvitation) : Nat × Nat :=
  (i.faculty, i.candidate_section)

/-- The lookup half of
`AvailabilityInvitation.objects.get_or_create(faculty=..., candidate_section=...)`. -/
def findInvitation (invites : List AvailabilityInvitation) (f s : Nat) :
    Option AvailabilityInvitation :=
  invites.find? (fun i => i.faculty == f && i.candidate_section == s)

/-- The body of `invite_faculty`'s double loop (views.py lines 642-658),
iterated over the faculty × section cross product in order: get-or-create the
invitation row; when `send_email` is requested and the row is newly created or
not yet emailed, attempt the dispatch — `_send_invitation_email` (views.py
lines 670-706) catches and merely logs a `send_mail` failure — and set
`email_sent = True` unconditionally afterwards.  `emailOk f s` models whether
the mail system actually dispatched the message; the returned log records each
attempt as (faculty, section, dispatched).  A newly created row that is then
emailed is inserted with the flag already set (create immediately followed by
the flag save). -/
def inviteLoop (createdBy : Nat) (send_email : Bool) (emailOk : Nat → Nat → Bool) :
    List (Nat × Nat) → List AvailabilityInvitation →
      List (Nat × Nat × Bool) → Nat →
      (List AvailabilityInvitation × List (Nat × Nat × Bool) × Nat)
  | [], invites, log, fresh => (invites, log, fresh)
  | (f, s) :: rest, invites, log, fresh =>
    match findInvitation invites f s with
    | some inv =>
      if send_email && !inv.email_sent then
        inviteLoop createdBy send_email emailOk rest
          (invites.map (fun i =>
            if i.id == inv.id then { i with email_sent := true } else i))
          (log ++ [(f, s, emailOk f s)]) fresh
      else
        inviteLoop createdBy send_email emailOk rest invites log fresh
    | none =>
      if send_email then
        inviteLoop createdBy send_email emailOk rest
          (invites ++ [⟨fresh, f, s, createdBy, true⟩])
          (log ++ [(f, s, emailOk f s)]) (fresh + 1)
      else
        inviteLoop createdBy send_email emailOk rest
          (invites ++ [⟨fresh, f, s, createdBy, false⟩]) log (fresh + 1)

/-- Action `AvailabilityInvitationViewSet.invite_faculty` (views.py lines 617-668):
admin only (403 otherwise); both id lists must be non-empty (400 otherwise);
the ids are resolved to rows upstream of the loop (resolution and the role
filter on faculty users are modelled as the given id lists), then the loop
runs over the faculty × section cross product. -/
def invite_faculty (admin : User) (faculty_ids candidate_section_ids : List Nat)
    (send_email : Bool) (emailOk : Nat → Nat → Bool)
    (invites : List AvailabilityInvitation) (fresh : Nat) :
    Except String (List AvailabilityInvitation × List (Nat × Nat × Bool) × Nat) :=
  if !admin.is_admin then
    .error "Only admins can send invitations"
  else if faculty_ids.isEmpty || candidate_section_ids.isEmpty then
    .error "Both faculty_ids and candidate_section_ids are required"
  else
    .ok (inviteLoop admin.id send_email emailOk
      (faculty_ids.flatMap (fun f => candidate_section_ids.map (fun s => (f, s))))
      invites [] fresh)

/-- A concrete persisted form used by witnesses: a text field, a select field
with two options, and a date_range field. -/
def exampleForm : Form :=
  { id := 1, title := "T", description := "D", is_active := true,
    assigned_to := [5],
    form_fields := [
      ⟨1, "text", "A", true, "", 1, []⟩,
      ⟨2, "select", "B", false, "h", 2, [⟨10, "Red", 1⟩, ⟨11, "Blue", 2⟩]⟩,
      ⟨3, "date_range", "C", true, "", 3, []⟩ ] }

/-! ## Theorems -/

/-- C1 (code bug): through the API a round-trip form update does NOT preserve
the persisted field and option ids.  Both nested serializers mark `id`
read-only, so DRF strips every nested id from `validated_data`
(`stripNestedIds`); `field_data.get('id')` / `option_data.get('id')` are then
always `None` inside `FormSerializer.update`, every submitted field and option
takes the create branch with a fresh pk, and the delete pass sweeps all the
original rows.  At `exampleForm` (field ids [1, 2, 3]; option ids [10, 11])
the round-tripped payload is accepted and the persisted field ids become
[100, 101, 104] with option ids [102, 103]: counts survive, identities do not,
contradicting the claim — and the repository's own test
`test_delete_removed_fields`, which asserts that a round-tripped field id
survives an update, as well as the dead "Update existing field" code path and
its comments. -/
theorem form_roundtrip_recreates_ids :
    ∃ f2 n2, formUpdateApi exampleForm exampleForm.toPayload 100 = .ok (f2, n2) ∧
      exampleForm.form_fields.map (fun g => g.id) = [1, 2, 3] ∧
      f2.form_fields.map (fun g => g.id) = [100, 101, 104] ∧
      exampleForm.form_fields.map (fun g => g.options.map (fun o => o.id)) =
        [[], [10, 11], []] ∧
      f2.form_fields.map (fun g => g.options.map (fun o => o.id)) =
        [[], [102, 103], []] ∧
      f2.form_fields.length = exampleForm.form_fields.length := by
  exact ⟨_, _, rfl, rfl, rfl, rfl, rfl, rfl⟩


/-- C5: for every time slot and after every attendee creation or deletion,
`available_slots` equals `max_attendees` minus the number of attendee rows for
that slot, and `is_full` holds if and only if `available_slots <= 0`. -/
theorem available_slots_is_full_invariant (slot : SessionTimeSlot)
    (attendees : List SessionAttendee) (op : AttendeeOp) :
    slot.available_slots (applyAttendeeOp attendees op) =
      (slot.max_attendees : Int) -
        (((applyAttendeeOp attendees op).filter
            (fun a => a.time_slot == slot.id)).length : Int) ∧
    (slot.is_full (applyAttendeeOp attendees op) = true ↔
      slot.available_slots (applyAttendeeOp attendees op) ≤ 0) := by
  refine ⟨rfl, ?_⟩
  simp [SessionTimeSlot.is_full]

/-- C6: the register action fails closed (403) for candidate callers; a
non-candidate caller is rejected with an error when the slot is full, rejected
when already registered, and otherwise gets a freshly created attendee row;
unregister succeeds exactly when an attendee row for (slot, caller) exists and
otherwise fails with not-found.  In every failing case the attendee table is
unchanged. -/
theorem register_unregister_behavior (u : User) (slot : SessionTimeSlot)
    (att : List SessionAttendee) (n : Nat) :
    (u.user_type = "candidate" →
      SessionTimeSlotViewSet.register u slot att n =
        (.forbidden "Candidates cannot register for sessions", att, n)) ∧
    (u.user_type ≠ "candidate" → slot.is_full att = true →
      SessionTimeSlotViewSet.register u slot att n =
        (.badRequest "Time slot is full", att, n)) ∧
    (u.user_type ≠ "candidate" → slot.is_full att = false →
        isRegistered u slot att = true →
      SessionTimeSlotViewSet.register u slot att n =
        (.badRequest "Already registered for this time slot", att, n)) ∧
    (u.user_type ≠ "candidate" → slot.is_full att = false →
        isRegistered u slot att = false →
      SessionTimeSlotViewSet.register u slot att n =
        (.created ⟨n, slot.id, u.id⟩, att ++ [⟨n, slot.id, u.id⟩], n + 1)) ∧
    (isRegistered u slot att = true →
      SessionTimeSlotViewSet.unregister u slot att =
        .ok (att.eraseP (fun a => a.time_slot == slot.id && a.user == u.id))) ∧
    (isRegistered u slot att = false →
      SessionTimeSlotViewSet.unregister u slot att = .error "Not found") := by
  refine ⟨?_, ?_, ?_, ?_, ?_, ?_⟩
  · intro h
    simp [SessionTimeSlotViewSet.register, h]
  · intro h hfull
    simp [SessionTimeSlotViewSet.register, h, hfull]
  · intro h hfull hreg
    simp [SessionTimeSlotViewSet.register, h, hfull, hreg]
  · intro h hfull hreg
    simp [SessionTimeSlotViewSet.register, h, hfull, hreg]
  · intro h
    simp [SessionTimeSlotViewSet.unregister, h]
  · intro h
    simp [SessionTimeSlotViewSet.unregister, h]

/-- Witness for C6: each arm of `register_unregister_behavior` applied at a
concrete input. -/
theorem register_unregister_behavior_witness :
    (SessionTimeSlotViewSet.register ⟨7, "candidate", "", "", none⟩
        ⟨10, 1, 0, none, 1, "", "", true⟩ [] 0 =
      (.forbidden "Candidates cannot register for sessions", [], 0)) ∧
    (SessionTimeSlotViewSet.register ⟨7, "faculty", "", "", none⟩
        ⟨10, 1, 0, none, 0, "", "", true⟩ [] 0 =
      (.badRequest "Time slot is full", [], 0)) ∧
    (SessionTimeSlotViewSet.register ⟨7, "faculty", "", "", none⟩
        ⟨10, 1, 0, none, 2, "", "", true⟩ [⟨3, 10, 7⟩] 5 =
      (.badRequest "Already registered for this time slot", [⟨3, 10, 7⟩], 5)) ∧
    (SessionTimeSlotViewSet.register ⟨7, "faculty", "", "", none⟩
        ⟨10, 1, 0, none, 1, "", "", true⟩ [] 4 =
      (.created ⟨4, 10, 7⟩, [⟨4, 10, 7⟩], 5)) ∧
    (SessionTimeSlotViewSet.unregister ⟨7, "faculty", "", "", none⟩
        ⟨10, 1, 0, none, 2, "", "", true⟩ [⟨3, 10, 7⟩] = .ok []) ∧
    (SessionTimeSlotViewSet.unregister ⟨7, "faculty", "", "", none⟩
        ⟨10, 1, 0, none, 2, "", "", true⟩ [] = .error "Not found") := by
  refine ⟨?_, ?_, ?_, ?_, ?_, ?_⟩
  · exact (register_unregister_behavior _ _ _ _).1 rfl
  · exact (register_unregister_behavior _ _ _ _).2.1 (by decide) (by decide)
  · exact (register_unregister_behavior _ _ _ _).2.2.1 (by decide) (by decide) (by decide)
  · exact (register_unregister_behavior _ _ _ _).2.2.2.1 (by decide) (by decide) (by decide)
  · have h := (register_unregister_behavior ⟨7, "faculty", "", "", none⟩
      ⟨10, 1, 0, none, 2, "", "", true⟩ [⟨3, 10, 7⟩] 0).2.2.2.2.1 (by decide)
    simpa using h
  · exact (register_unregister_behavior ⟨7, "faculty", "", "", none⟩
      ⟨10, 1, 0, none, 2, "", "", true⟩ [] 0).2.2.2.2.2 (by decide)

/-- C10: in the register action the capacity check precedes the
duplicate-registration check: a non-candidate caller who is already registered
for a full slot receives the "Time slot is full" error, and the attendee table
is unchanged. -/
theorem register_full_before_duplicate (u : User) (slot : SessionTimeSlot)
    (att : List SessionAttendee) (n : Nat)
    (hu : u.user_type ≠ "candidate") (hfull : slot.is_full att = true)
    (hreg : isRegistered u slot att = true) :
    SessionTimeSlotViewSet.register u slot att n =
      (.badRequest "Time slot is full", att, n) := by
  simp [SessionTimeSlotViewSet.register, hu, hfull]

/-- Witness for C10: a full one-seat slot whose only attendee re-registers. -/
theorem register_full_before_duplicate_witness :
    SessionTimeSlotViewSet.register ⟨7, "faculty", "", "", none⟩
        ⟨10, 1, 0, none, 1, "", "", true⟩ [⟨3, 10, 7⟩] 5 =
      (.badRequest "Time slot is full", [⟨3, 10, 7⟩], 5) :=
  register_full_before_duplicate _ _ _ _ (by decide) (by decide) (by decide)

/-- C9: form-field validation fails for select/radio/checkbox fields without
options, fails for date_range fields with options, and succeeds in all other
combinations (other types are unconstrained on options). -/
theorem form_field_options_validation (t : String) (opts : List OptionPayload) :
    (isChoiceType t = true → opts = [] →
      FormFieldSerializer.validate t opts =
        .error ⟨"options", "Options are required for " ++ t ++ " type fields"⟩) ∧
    (isChoiceType t = true → opts ≠ [] →
      FormFieldSerializer.validate t opts = .ok ()) ∧
    (t = "date_range" → opts ≠ [] →
      FormFieldSerializer.validate t opts =
        .error ⟨"options", "Options are not allowed for date range fields"⟩) ∧
    (t = "date_range" → opts = [] → FormFieldSerializer.validate t opts = .ok ()) ∧
    (isChoiceType t = false → t ≠ "date_range" →
      FormFieldSerializer.validate t opts = .ok ()) := by
  refine ⟨?_, ?_, ?_, ?_, ?_⟩
  · intro hc he
    subst he
    simp [FormFieldSerializer.validate, hc]
  · intro hc he
    simp [FormFieldSerializer.validate, hc, he]
  · intro ht he
    subst ht
    simp [FormFieldSerializer.validate, isChoiceType, he]
  · intro ht he
    subst ht he
    simp [FormFieldSerializer.validate, isChoiceType]
  · intro hc ht
    simp [FormFieldSerializer.validate, hc, ht]

/-- Witness for C9: the five arms of `form_field_options_validation` at
concrete field types and option lists. -/
theorem form_field_options_validation_witness :
    (FormFieldSerializer.validate "select" [] =
      .error ⟨"options", "Options are required for select type fields"⟩) ∧
    (FormFieldSerializer.validate "radio" [⟨none, "a", 0⟩] = .ok ()) ∧
    (FormFieldSerializer.validate "date_range" [⟨none, "a", 0⟩] =
      .error ⟨"options", "Options are not allowed for date range fields"⟩) ∧
    (FormFieldSerializer.validate "date_range" [] = .ok ()) ∧
    (FormFieldSerializer.validate "text" [] = .ok ()) := by
  refine ⟨?_, ?_, ?_, ?_, ?_⟩
  · exact (form_field_options_validation "select" []).1 (by decide) rfl
  · exact (form_field_options_validation "radio" _).2.1 (by decide) (by decide)
  · exact (form_field_options_validation "date_range" _).2.2.1 rfl (by decide)
  · exact (form_field_options_validation "date_range" []).2.2.2.1 rfl rfl
  · exact (form_field_options_validation "text" []).2.2.2.2 (by decide) (by decide)

/-- C2 (code bug): the claim — and the repository's own test
`test_start_time_before_session_start` — require the create serializer to
reject a slot starting before the parent Session's start_date with an error on
`start_time`.  At the spec scenario (session window 2024-06-01..2024-06-05,
slot 2024-05-30..2024-06-02) the serializer accepts the payload: its `validate`
only compares end against start and never consults the Session. -/
theorem timeslot_create_ignores_session_window :
    (SessionTimeSlotCreateSerializer.validate
        ⟨1, some 20240530, some 20240602, 1, "", "", true⟩ =
      .ok ⟨1, some 20240530, some 20240602, 1, "", "", true⟩) ∧
    ((20240530 : Int) < (⟨1, 20240601, 20240605⟩ : Session).start_date) := by
  refine ⟨rfl, by norm_num⟩

/-- C4 (code bug): the completed-uniqueness invariant is enforced only on the
create path.  Concrete API trace: user 5 creates two incomplete submissions of
`exampleForm` (both accepted — no completed submission exists yet), then
PATCHes each to `is_completed = true`; no check fires on the update
path (`FormSubmission.clean` is never called by it), and afterwards the pair
(form 1, user 5) holds two completed submissions, contradicting the claimed
invariant. -/
theorem two_completed_submissions_reachable :
    ∃ store1 n1 store2 n2,
      formSubmissionCreate [] exampleForm 5 [] false 1 = .ok (store1, n1) ∧
      formSubmissionCreate store1 exampleForm 5 [] false n1 = .ok (store2, n2) ∧
      completedCount
        (formSubmissionUpdate
          (formSubmissionUpdate store2 exampleForm.form_fields 1 none none (some true))
          exampleForm.form_fields 2 none none (some true))
        exampleForm.id 5 = 2 := by
  refine ⟨_, _, _, _, rfl, rfl, ?_⟩
  rfl

/-- C8: `form_version` is computed from the form's current field set at the
submission's first save and never recomputed: a later save — with the field
set and every writable submission attribute arbitrarily changed — leaves it
fixed, and the API update path (where `form_version` is read-only) preserves
the snapshot of every already saved submission in the store. -/
theorem form_version_frozen (sub : FormSubmission) (ffs0 : List FormField)
    (h0 : sub.form_version = none) :
    ((FormSubmission.save ffs0 sub).form_version =
      some ⟨ffs0.map (fun fl => (fl.id, ⟨fl.type, fl.label, fl.required⟩))⟩) ∧
    (∀ (ffs1 : List FormField) (fm : Nat) (a : List (String × String)) (c : Bool),
      (FormSubmission.save ffs1
        { FormSubmission.save ffs0 sub with
            form := fm, answers := a, is_completed := c }).form_version =
      (FormSubmission.save ffs0 sub).form_version) ∧
    (∀ (store : List FormSubmission) (ffs1 : List FormField) (pk : Nat)
        (nf : Option Nat) (na : Option (List (String × String))) (nc : Option Bool),
      (∀ s ∈ store, s.form_version.isSome) →
      (formSubmissionUpdate store ffs1 pk nf na nc).map (·.form_version) =
        store.map (·.form_version)) := by
  refine ⟨?_, ?_, ?_⟩
  · simp [FormSubmission.save, h0]
  · intro ffs1 fm a c
    simp [FormSubmission.save, h0]
  · intro store ffs1 pk nf na nc hsome
    unfold formSubmissionUpdate
    rw [List.map_map]
    apply List.map_congr_left
    intro s hs
    have hv := hsome s hs
    simp only [Function.comp_apply]
    by_cases hid : s.id == pk
    · simp only [hid, if_true]
      obtain ⟨v, hveq⟩ := Option.isSome_iff_exists.mp hv
      simp [FormSubmission.save, hveq]
    · simp [hid]

/-- Witness for C8: `form_version_frozen` applied to a fresh submission of
`exampleForm`, then resaved against a changed field set. -/
theorem form_version_frozen_witness :
    ((FormSubmission.save exampleForm.form_fields ⟨1, 1, 5, [], false, none⟩).form_version =
      some ⟨[(1, ⟨"text", "A", true⟩), (2, ⟨"select", "B", false⟩),
             (3, ⟨"date_range", "C", true⟩)]⟩) ∧
    ((FormSubmission.save []
        { FormSubmission.save exampleForm.form_fields ⟨1, 1, 5, [], false, none⟩ with
            form := 9, answers := [("1", "x")], is_completed := true }).form_version =
      (FormSubmission.save exampleForm.form_fields ⟨1, 1, 5, [], false, none⟩).form_version) := by
  have h := form_version_frozen ⟨1, 1, 5, [], false, none⟩ exampleForm.form_fields rfl
  exact ⟨h.1, h.2.1 [] 9 [("1", "x")] true⟩

/-- Properties of the import loop: one created slot per availability time
slot, each with capacity one, the defaulted location, the target section, and
a created attendee row registering the faculty member. -/
theorem importLoop_spec (faculty : User) (sectionId : Nat) :
    ∀ (slots : List AvailabilityTimeSlot) (n : Nat),
      (importLoop faculty sectionId slots n).1.length = slots.length ∧
      (importLoop faculty sectionId slots n).2.2.1.length = slots.length ∧
      (∀ s ∈ (importLoop faculty sectionId slots n).1,
        s.max_attendees = 1 ∧ s.location = faculty.room_number.getD "" ∧
        s.candidate_section = sectionId ∧
        ∃ a ∈ (importLoop faculty sectionId slots n).2.1,
          a.time_slot = s.id ∧ a.user = faculty.id) := by
  intro slots
  induction slots with
  | nil =>
    intro n
    simp [importLoop]
  | cons ts rest ih =>
    intro n
    obtain ⟨ihlen, ihclen, ihprop⟩ := ih (n + 2)
    refine ⟨by simp [importLoop, ihlen], by simp [importLoop, ihclen], ?_⟩
    intro s hs
    simp only [importLoop, List.mem_cons] at hs
    rcases hs with hs | hs
    · subst hs
      refine ⟨rfl, rfl, rfl, ⟨n + 1, n, faculty.id⟩, ?_, rfl, rfl⟩
      simp [importLoop]
    · obtain ⟨h1, h2, h3, a, ha, ha1, ha2⟩ := ihprop s hs
      refine ⟨h1, h2, h3, a, ?_, ha1, ha2⟩
      simp only [importLoop, List.mem_cons]
      exact Or.inr ha

/-- C3: a successful admin import of an availability with N time slots creates
exactly N new slots on the section, each with capacity 1, the faculty room as
location and the faculty member auto-registered; the availability id is
appended to the section's imported id list at most once — an already present
id is not re-appended (so a duplicate-free list stays duplicate-free and a
second import in succession leaves the list unchanged). -/
theorem import_slots_spec (user faculty : User)
    (slots : List AvailabilityTimeSlot) (pk : Nat) (st : ImportState)
    (hadmin : user.is_admin = true) :
    ∃ resp st', import_slots user faculty slots pk st = .ok (resp, st') ∧
      resp.created_time_slots.length = slots.length ∧
      st'.time_slots.length = st.time_slots.length + slots.length ∧
      (∀ s ∈ st'.time_slots, s ∈ st.time_slots ∨
        (s.max_attendees = 1 ∧ s.location = faculty.room_number.getD "" ∧
         s.candidate_section = st.candidate_section.id ∧
         ∃ a ∈ st'.attendees, a.time_slot = s.id ∧ a.user = faculty.id)) ∧
      st'.candidate_section.imported_availability_ids =
        some (if (st.candidate_section.imported_availability_ids.getD []).contains pk
              then st.candidate_section.imported_availability_ids.getD []
              else st.candidate_section.imported_availability_ids.getD [] ++ [pk]) ∧
      pk ∈ st'.candidate_section.imported_availability_ids.getD [] ∧
      ((st.candidate_section.imported_availability_ids.getD []).Nodup →
        (st'.candidate_section.imported_availability_ids.getD []).Nodup) ∧
      (∀ resp2 st'', import_slots user faculty slots pk st' = .ok (resp2, st'') →
        st''.candidate_section.imported_availability_ids =
          st'.candidate_section.imported_availability_ids) := by
  obtain ⟨hlen, hclen, hprop⟩ := importLoop_spec faculty st.candidate_section.id slots st.nextId
  have hadm : (!user.is_admin) = false := by simp [hadmin]
  refine ⟨⟨(importLoop faculty st.candidate_section.id slots st.nextId).2.2.1,
      if (st.candidate_section.imported_availability_ids.getD []).contains pk
        then st.candidate_section.imported_availability_ids.getD []
        else st.candidate_section.imported_availability_ids.getD [] ++ [pk]⟩,
    ⟨{ st.candidate_section with
        imported_availability_ids :=
          some (if (st.candidate_section.imported_availability_ids.getD []).contains pk
            then st.candidate_section.imported_availability_ids.getD []
            else st.candidate_section.imported_availability_ids.getD [] ++ [pk]) },
      st.time_slots ++ (importLoop faculty st.candidate_section.id slots st.nextId).1,
      st.attendees ++ (importLoop faculty st.candidate_section.id slots st.nextId).2.1,
      (importLoop faculty st.candidate_section.id slots st.nextId).2.2.2⟩,
    ?_, ?_, ?_, ?_, ?_, ?_, ?_, ?_⟩
  · simp only [import_slots, hadm, Bool.false_eq_true, if_false]
  · exact hclen
  · simpa using hlen
  · intro s hs
    rcases List.mem_append.mp hs with hmem | hmem
    · exact Or.inl hmem
    · obtain ⟨h1, h2, h3, a, ha, ha1, ha2⟩ := hprop s hmem
      exact Or.inr ⟨h1, h2, h3, a, List.mem_append_right _ ha, ha1, ha2⟩
  · rfl
  · by_cases hc : (st.candidate_section.imported_availability_ids.getD []).contains pk
    · simp only [Option.getD_some]
      rw [if_pos hc]
      simpa using hc
    · simp only [Option.getD_some]
      rw [if_neg hc]
      simp
  · intro hnodup
    simp only [Option.getD_some]
    by_cases hc : (st.candidate_section.imported_availability_ids.getD []).contains pk
    · rw [if_pos hc]
      exact hnodup
    · rw [if_neg hc]
      refine List.Nodup.append hnodup (List.nodup_singleton pk) ?_
      intro x hx hx'
      rw [List.mem_singleton] at hx'
      subst hx'
      exact hc (by simpa using hx)
  · intro resp2 st'' heq
    have hpk : ((if (st.candidate_section.imported_availability_ids.getD []).contains pk
        then st.candidate_section.imported_availability_ids.getD []
        else st.candidate_section.imported_availability_ids.getD [] ++ [pk]) :
          List Nat).contains pk = true := by
      by_cases hc : (st.candidate_section.imported_availability_ids.getD []).contains pk
      · rw [if_pos hc]
        exact hc
      · rw [if_neg hc]
        simp
    simp only [import_slots, hadm, Bool.false_eq_true, if_false,
      Option.getD_some, hpk, if_true, Except.ok.injEq, Prod.mk.injEq] at heq
    obtain ⟨-, hst⟩ := heq
    rw [← hst]

/-- Witness for C3: an admin imports a two-interval availability (id 4) into a
section that has already imported availability 9. -/
theorem import_slots_spec_witness :
    ∃ resp st',
      import_slots ⟨1, "admin", "", "", none⟩ ⟨2, "faculty", "Jo", "Fa", some "R101"⟩
        [⟨1, 4, 10, 20⟩, ⟨2, 4, 30, 40⟩] 4 ⟨⟨7, 1, 5, some [9]⟩, [], [], 50⟩ =
      .ok (resp, st') ∧ resp.created_time_slots.length = 2 := by
  obtain ⟨resp, st', heq, hlen, -⟩ :=
    import_slots_spec ⟨1, "admin", "", "", none⟩ ⟨2, "faculty", "Jo", "Fa", some "R101"⟩
      [⟨1, 4, 10, 20⟩, ⟨2, 4, 30, 40⟩] 4 ⟨⟨7, 1, 5, some [9]⟩, [], [], 50⟩ (by decide)
  exact ⟨resp, st', heq, hlen⟩

/-- C7 (counterexample): with a failing mail system (`emailOk` always false)
an admin invites faculty 3 to section 5 with `send_email = true`: the
resulting invitation row records `email_sent = true` even though the only
dispatch attempt failed (the log shows one attempt, unsuccessful) — the
exception from `send_mail` is swallowed inside `_send_invitation_email` and
the flag is set unconditionally afterwards. -/
theorem invite_faculty_email_sent_despite_failure :
    invite_faculty ⟨1, "admin", "", "", none⟩ [3] [5] true (fun _ _ => false) [] 10 =
      .ok ([⟨10, 3, 5, 1, true⟩], [(3, 5, false)], 11) := by
  rfl

/-- Invariant-carrying specification of the `invite_faculty` loop: pair
uniqueness and id freshness are preserved; pairs outside the batch are
untouched; every pair in the batch ends with exactly the row selected by
`findInvitation`, whose `email_sent` is the old flag OR-ed with `send_email`,
independently of `emailOk`. -/
theorem inviteLoop_spec (createdBy : Nat) (send_email : Bool)
    (emailOk : Nat → Nat → Bool) :
    ∀ (pairs : List (Nat × Nat)) (invites : List AvailabilityInvitation)
      (log : List (Nat × Nat × Bool)) (fresh : Nat),
      (invites.map pairKey).Nodup →
      (invites.map (fun i => i.id)).Nodup →
      (∀ i ∈ invites, i.id < fresh) →
      ∃ invites' log' fresh',
        inviteLoop createdBy send_email emailOk pairs invites log fresh =
          (invites', log', fresh') ∧
        (invites'.map pairKey).Nodup ∧
        ((invites'.map (fun i => i.id)).Nodup ∧ ∀ i ∈ invites', i.id < fresh') ∧
        (∀ f s, (f, s) ∉ pairs →
          findInvitation invites' f s = findInvitation invites f s) ∧
        (∀ f s, (f, s) ∈ pairs →
          ∃ inv, findInvitation invites' f s = some inv ∧
            inv.email_sent =
              (((findInvitation invites f s).map (fun i => i.email_sent)).getD false
                || send_email)) := by
  intro pairs
  induction pairs with
  | nil =>
    intro invites log fresh h1 h2 h3
    exact ⟨invites, log, fresh, rfl, h1, ⟨h2, h3⟩, fun f s _ => rfl,
      fun f s h => absurd h (List.not_mem_nil _)⟩
  | cons p rest ih =>
    obtain ⟨f0, s0⟩ := p
    intro invites log fresh h1 h2 h3
    cases hfind : findInvitation invites f0 s0 with
    | some inv0 =>
      have hfind' : invites.find?
          (fun i => i.faculty == f0 && i.candidate_section == s0) = some inv0 := hfind
      have hinv0mem : inv0 ∈ invites := List.mem_of_find?_eq_some hfind'
      have hinv0p := List.find?_some hfind'
      have hinv0fs : inv0.faculty = f0 ∧ inv0.candidate_section = s0 := by
        simpa using hinv0p
      by_cases hsend : (send_email && !inv0.email_sent) = true
      · -- the found row is updated in place
        have hpk_upd : ∀ i : AvailabilityInvitation,
            pairKey (if i.id == inv0.id then { i with email_sent := true } else i) =
              pairKey i := by
          intro i
          by_cases h : (i.id == inv0.id) = true <;> simp [pairKey, h]
        have hid_upd : ∀ i : AvailabilityInvitation,
            (if i.id == inv0.id then { i with email_sent := true } else i).id = i.id := by
          intro i
          by_cases h : (i.id == inv0.id) = true <;> simp [h]
        have h1' : ((invites.map (fun i =>
            if i.id == inv0.id then { i with email_sent := true } else i)).map
              pairKey).Nodup := by
          rw [List.map_map]
          rw [show (pairKey ∘ fun i : AvailabilityInvitation =>
            if i.id == inv0.id then { i with email_sent := true } else i) = pairKey
            from funext hpk_upd]
          exact h1
        have h2' : ((invites.map (fun i =>
            if i.id == inv0.id then { i with email_sent := true } else i)).map
              (fun i => i.id)).Nodup := by
          rw [List.map_map]
          rw [show ((fun i : AvailabilityInvitation => i.id) ∘ fun i =>
            if i.id == inv0.id then { i with email_sent := true } else i) =
              (fun i : AvailabilityInvitation => i.id) from funext hid_upd]
          exact h2
        have h3' : ∀ i ∈ invites.map (fun i =>
            if i.id == inv0.id then { i with email_sent := true } else i),
            i.id < fresh := by
          intro i hi
          obtain ⟨j, hj, rfl⟩ := List.mem_map.mp hi
          rw [hid_upd]
          exact h3 j hj
        have hfind1 : ∀ f s, findInvitation (invites.map (fun i =>
            if i.id == inv0.id then { i with email_sent := true } else i)) f s =
            (findInvitation invites f s).map (fun i =>
              if i.id == inv0.id then { i with email_sent := true } else i) := by
          intro f s
          show (invites.map _).find? _ = _
          rw [List.find?_map]
          rw [show ((fun i : AvailabilityInvitation =>
            i.faculty == f && i.candidate_section == s) ∘ fun i =>
              if i.id == inv0.id then { i with email_sent := true } else i) =
            (fun i : AvailabilityInvitation =>
              i.faculty == f && i.candidate_section == s) from ?_]
          · rfl
          · funext i
            by_cases h : (i.id == inv0.id) = true <;> simp [Function.comp, h]
        have hfix_ne : ∀ f s, ¬((f, s) = (f0, s0)) →
            findInvitation (invites.map (fun i =>
              if i.id == inv0.id then { i with email_sent := true } else i)) f s =
              findInvitation invites f s := by
          intro f s hne
          rw [hfind1]
          cases hfs : findInvitation invites f s with
          | none => rfl
          | some row =>
            have hfs' : invites.find?
                (fun i => i.faculty == f && i.candidate_section == s) = some row := hfs
            have hrowmem : row ∈ invites := List.mem_of_find?_eq_some hfs'
            have hrowp := List.find?_some hfs'
            have hrowfs : row.faculty = f ∧ row.candidate_section = s := by
              simpa using hrowp
            have hrid : (row.id == inv0.id) = false := by
              apply beq_eq_false_iff_ne.mpr
              intro hid
              have heqrow : row = inv0 :=
                List.inj_on_of_nodup_map h2 hrowmem hinv0mem hid
              apply hne
              have hf : f = f0 := by rw [← hrowfs.1, heqrow, hinv0fs.1]
              have hs : s = s0 := by rw [← hrowfs.2, heqrow, hinv0fs.2]
              rw [hf, hs]
            simp only [Option.map_some']
            rw [hrid]
            simp
        have hfound1 : findInvitation (invites.map (fun i =>
            if i.id == inv0.id then { i with email_sent := true } else i)) f0 s0 =
            some { inv0 with email_sent := true } := by
          rw [hfind1, hfind]
          simp
        have hse : send_email = true ∧ inv0.email_sent = false := by
          simpa using hsend
        obtain ⟨invites', log', fresh', heq, g1, g2, g4, g5⟩ :=
          ih (invites.map (fun i =>
            if i.id == inv0.id then { i with email_sent := true } else i))
            (log ++ [(f0, s0, emailOk f0 s0)]) fresh h1' h2' h3'
        refine ⟨invites', log', fresh', ?_, g1, g2, ?_, ?_⟩
        · have hstep : inviteLoop createdBy send_email emailOk ((f0, s0) :: rest)
              invites log fresh =
              inviteLoop createdBy send_email emailOk rest
                (invites.map (fun i =>
                  if i.id == inv0.id then { i with email_sent := true } else i))
                (log ++ [(f0, s0, emailOk f0 s0)]) fresh := by
            simp only [inviteLoop, hfind]
            rw [if_pos hsend]
          exact hstep.trans heq
        · intro f s hnot
          have hnr : (f, s) ∉ rest := fun h => hnot (List.mem_cons_of_mem _ h)
          have hnh : ¬((f, s) = (f0, s0)) := fun h => hnot (h ▸ List.mem_cons_self _ _)
          rw [g4 f s hnr, hfix_ne f s hnh]
        · intro f s hm
          rcases List.mem_cons.mp hm with hh | hr
          · obtain ⟨hf, hs0⟩ := Prod.mk.injEq .. ▸ hh
            subst hf hs0
            by_cases hr0 : (f, s) ∈ rest
            · obtain ⟨inv, hfi, hesent⟩ := g5 f s hr0
              refine ⟨inv, hfi, ?_⟩
              rw [hesent, hfound1, hfind]
              simp [hse.1, hse.2]
            · have hkeep := g4 f s hr0
              rw [hfound1] at hkeep
              refine ⟨{ inv0 with email_sent := true }, hkeep, ?_⟩
              rw [hfind]
              simp [hse.1, hse.2]
          · obtain ⟨inv, hfi, hesent⟩ := g5 f s hr
            refine ⟨inv, hfi, ?_⟩
            rw [hesent]
            by_cases hhs : (f, s) = (f0, s0)
            · obtain ⟨hf, hs0⟩ := Prod.mk.injEq .. ▸ hhs
              subst hf hs0
              rw [hfound1, hfind]
              simp [hse.1, hse.2]
            · rw [hfix_ne f s hhs]
      · -- found and nothing to send: no state change for this pair
        have hsendf : (send_email && !inv0.email_sent) = false := by
          simpa using hsend
        obtain ⟨invites', log', fresh', heq, g1, g2, g4, g5⟩ :=
          ih invites log fresh h1 h2 h3
        refine ⟨invites', log', fresh', ?_, g1, g2, ?_, ?_⟩
        · have hstep : inviteLoop createdBy send_email emailOk ((f0, s0) :: rest)
              invites log fresh =
              inviteLoop createdBy send_email emailOk rest invites log fresh := by
            simp only [inviteLoop, hfind]
            rw [if_neg (by simp [hsendf])]
          exact hstep.trans heq
        · intro f s hnot
          exact g4 f s (fun h => hnot (List.mem_cons_of_mem _ h))
        · intro f s hm
          have hor : (inv0.email_sent || send_email) = inv0.email_sent := by
            cases hb : send_email <;> cases hc : inv0.email_sent <;> simp_all
          rcases List.mem_cons.mp hm with hh | hr
          · obtain ⟨hf, hs0⟩ := Prod.mk.injEq .. ▸ hh
            subst hf hs0
            by_cases hr0 : (f, s) ∈ rest
            · obtain ⟨inv, hfi, hesent⟩ := g5 f s hr0
              exact ⟨inv, hfi, hesent⟩
            · have hkeep := g4 f s hr0
              rw [hfind] at hkeep
              refine ⟨inv0, hkeep, ?_⟩
              rw [hfind]
              simp only [Option.map_some', Option.getD_some]
              exact hor.symm
          · exact g5 f s hr
    | none =>
      have hfindn : invites.find?
          (fun i => i.faculty == f0 && i.candidate_section == s0) = none := hfind
      have hnomatch : ∀ i ∈ invites,
          ¬((i.faculty == f0 && i.candidate_section == s0) = true) :=
        List.find?_eq_none.mp hfindn
      have hpk_not : ∀ b : Bool,
          pairKey (⟨fresh, f0, s0, createdBy, b⟩ : AvailabilityInvitation) ∉
            invites.map pairKey := by
        intro b hmem
        obtain ⟨i, hi, hpe⟩ := List.mem_map.mp hmem
        apply hnomatch i hi
        have : i.faculty = f0 ∧ i.candidate_section = s0 := by
          simpa [pairKey, Prod.ext_iff] using hpe
        simp [this.1, this.2]
      have h1' : ∀ b : Bool, ((invites ++
          [(⟨fresh, f0, s0, createdBy, b⟩ : AvailabilityInvitation)]).map
            pairKey).Nodup := by
        intro b
        rw [List.map_append]
        refine List.Nodup.append h1 (by simp) ?_
        intro x hx hx'
        simp only [List.map_cons, List.map_nil, List.mem_singleton] at hx'
        subst hx'
        exact hpk_not b hx
      have h2' : ∀ b : Bool, ((invites ++
          [(⟨fresh, f0, s0, createdBy, b⟩ : AvailabilityInvitation)]).map
            (fun i => i.id)).Nodup := by
        intro b
        rw [List.map_append]
        refine List.Nodup.append h2 (by simp) ?_
        intro x hx hx'
        simp only [List.map_cons, List.map_nil, List.mem_singleton] at hx'
        subst hx'
        obtain ⟨i, hi, hie⟩ := List.mem_map.mp hx
        exact absurd hie (Nat.ne_of_lt (h3 i hi))
      have h3' : ∀ b : Bool, ∀ i ∈ invites ++
          [(⟨fresh, f0, s0, createdBy, b⟩ : AvailabilityInvitation)],
          i.id < fresh + 1 := by
        intro b i hi
        rcases List.mem_append.mp hi with hi | hi
        · exact Nat.lt_succ_of_lt (h3 i hi)
        · simp only [List.mem_singleton] at hi
          subst hi
          exact Nat.lt_succ_self _
      have hfindapp : ∀ (b : Bool) f s,
          findInvitation (invites ++
            [(⟨fresh, f0, s0, createdBy, b⟩ : AvailabilityInvitation)]) f s =
          if (f, s) = (f0, s0)
            then some ⟨fresh, f0, s0, createdBy, b⟩
            else findInvitation invites f s := by
        intro b f s
        show (invites ++ _).find? _ = _
        rw [List.find?_append]
        by_cases hfs : (f, s) = (f0, s0)
        · obtain ⟨hf, hs0⟩ := Prod.mk.injEq .. ▸ hfs
          subst hf hs0
          rw [hfindn]
          simp
        · rw [if_neg hfs]
          have : ¬(f0 = f ∧ s0 = s) := by
            intro ⟨ha, hb⟩
            exact hfs (by rw [ha, hb])
          have hsingle : (([(⟨fresh, f0, s0, createdBy, b⟩ :
              AvailabilityInvitation)]).find?
                (fun i => i.faculty == f && i.candidate_section == s)) = none := by
            simp only [List.find?_singleton]
            rw [if_neg]
            simp only [Bool.and_eq_true, beq_iff_eq]
            exact this
          rw [hsingle]
          exact Option.or_none
      cases hseb : send_email with
      | false =>
        subst hseb
        obtain ⟨invites', log', fresh', heq, g1, g2, g4, g5⟩ :=
          ih (invites ++ [⟨fresh, f0, s0, createdBy, false⟩]) log (fresh + 1)
            (h1' false) (h2' false) (h3' false)
        refine ⟨invites', log', fresh', ?_, g1, g2, ?_, ?_⟩
        · have hstep : inviteLoop createdBy false emailOk ((f0, s0) :: rest)
              invites log fresh =
              inviteLoop createdBy false emailOk rest
                (invites ++ [⟨fresh, f0, s0, createdBy, false⟩]) log (fresh + 1) := by
            simp only [inviteLoop, hfind]
            simp
          exact hstep.trans heq
        · intro f s hnot
          have hnr : (f, s) ∉ rest := fun h => hnot (List.mem_cons_of_mem _ h)
          have hnh : ¬((f, s) = (f0, s0)) := fun h => hnot (h ▸ List.mem_cons_self _ _)
          rw [g4 f s hnr, hfindapp false f s, if_neg hnh]
        · intro f s hm
          rcases List.mem_cons.mp hm with hh | hr
          · obtain ⟨hf, hs0⟩ := Prod.mk.injEq .. ▸ hh
            subst hf hs0
            by_cases hr0 : (f, s) ∈ rest
            · obtain ⟨inv, hfi, hesent⟩ := g5 f s hr0
              refine ⟨inv, hfi, ?_⟩
              rw [hesent, hfindapp false f s, if_pos rfl, hfind]
              simp
            · have hkeep := g4 f s hr0
              rw [hfindapp false f s, if_pos rfl] at hkeep
              refine ⟨⟨fresh, f, s, createdBy, false⟩, hkeep, ?_⟩
              rw [hfind]
              simp
          · obtain ⟨inv, hfi, hesent⟩ := g5 f s hr
            refine ⟨inv, hfi, ?_⟩
            rw [hesent]
            by_cases hhs : (f, s) = (f0, s0)
            · obtain ⟨hf, hs0⟩ := Prod.mk.injEq .. ▸ hhs
              subst hf hs0
              rw [hfindapp false f s, if_pos rfl, hfind]
              simp
            · rw [hfindapp false f s, if_neg hhs]
      | true =>
        subst hseb
        obtain ⟨invites', log', fresh', heq, g1, g2, g4, g5⟩ :=
          ih (invites ++ [⟨fresh, f0, s0, createdBy, true⟩])
            (log ++ [(f0, s0, emailOk f0 s0)]) (fresh + 1)
            (h1' true) (h2' true) (h3' true)
        refine ⟨invites', log', fresh', ?_, g1, g2, ?_, ?_⟩
        · have hstep : inviteLoop createdBy true emailOk ((f0, s0) :: rest)
              invites log fresh =
              inviteLoop createdBy true emailOk rest
                (invites ++ [⟨fresh, f0, s0, createdBy, true⟩])
                (log ++ [(f0, s0, emailOk f0 s0)]) (fresh + 1) := by
            simp only [inviteLoop, hfind]
            simp
          exact hstep.trans heq
        · intro f s hnot
          have hnr : (f, s) ∉ rest := fun h => hnot (List.mem_cons_of_mem _ h)
          have hnh : ¬((f, s) = (f0, s0)) := fun h => hnot (h ▸ List.mem_cons_self _ _)
          rw [g4 f s hnr, hfindapp true f s, if_neg hnh]
        · intro f s hm
          rcases List.mem_cons.mp hm with hh | hr
          · obtain ⟨hf, hs0⟩ := Prod.mk.injEq .. ▸ hh
            subst hf hs0
            by_cases hr0 : (f, s) ∈ rest
            · obtain ⟨inv, hfi, hesent⟩ := g5 f s hr0
              refine ⟨inv, hfi, ?_⟩
              rw [hesent, hfindapp true f s, if_pos rfl, hfind]
              simp
            · have hkeep := g4 f s hr0
              rw [hfindapp true f s, if_pos rfl] at hkeep
              refine ⟨⟨fresh, f, s, createdBy, true⟩, hkeep, ?_⟩
              rw [hfind]
              simp
          · obtain ⟨inv, hfi, hesent⟩ := g5 f s hr
            refine ⟨inv, hfi, ?_⟩
            rw [hesent]
            by_cases hhs : (f, s) = (f0, s0)
            · obtain ⟨hf, hs0⟩ := Prod.mk.injEq .. ▸ hhs
              subst hf hs0
              rw [hfindapp true f s, if_pos rfl, hfind]
              simp
            · rw [hfindapp true f s, if_neg hhs]

/-- C7 (amended): in the invite_faculty bulk action, for each (faculty,
section) pair an invitation row is get-or-created, so rows stay unique per
pair and every pair of the batch ends with exactly one matching row; when
send_email is requested the invitation's `email_sent` flag ends up true
whenever a send was attempted (row newly created or not yet emailed) —
i.e. it becomes `old flag OR send_email` — regardless of whether the dispatch
(`emailOk`) succeeded. -/
theorem invite_faculty_get_or_create (admin : User) (fids sids : List Nat)
    (send_email : Bool) (emailOk : Nat → Nat → Bool)
    (invites : List AvailabilityInvitation) (fresh : Nat)
    (hadmin : admin.is_admin = true) (hf : fids ≠ []) (hs : sids ≠ [])
    (h1 : (invites.map pairKey).Nodup)
    (h2 : (invites.map (fun i => i.id)).Nodup)
    (h3 : ∀ i ∈ invites, i.id < fresh) :
    ∃ invites' log' fresh',
      invite_faculty admin fids sids send_email emailOk invites fresh =
        .ok (invites', log', fresh') ∧
      (invites'.map pairKey).Nodup ∧
      (∀ f ∈ fids, ∀ s ∈ sids,
        ∃ inv, findInvitation invites' f s = some inv ∧
          inv.email_sent =
            (((findInvitation invites f s).map (fun i => i.email_sent)).getD false
              || send_email)) := by
  obtain ⟨invites', log', fresh', heq, g1, g2, g4, g5⟩ :=
    inviteLoop_spec admin.id send_email emailOk
      (fids.flatMap (fun f => sids.map (fun s => (f, s)))) invites [] fresh h1 h2 h3
  refine ⟨invites', log', fresh', ?_, g1, ?_⟩
  · have ha : (!admin.is_admin) = false := by simp [hadmin]
    have hfe : (fids.isEmpty || sids.isEmpty) = false := by
      cases fids with
      | nil => exact absurd rfl hf
      | cons a l =>
        cases sids with
        | nil => exact absurd rfl hs
        | cons b m => simp [List.isEmpty]
    simp only [invite_faculty, ha, hfe, Bool.false_eq_true, if_false]
    rw [heq]
  · intro f hfm s hsm
    exact g5 f s (List.mem_flatMap.mpr ⟨f, hfm, List.mem_map.mpr ⟨s, hsm, rfl⟩⟩)

/-- Witness for C7's amended claim: one admin, one faculty, one section,
send_email requested, mail system failing. -/
theorem invite_faculty_get_or_create_witness :
    ∃ invites' log' fresh',
      invite_faculty ⟨1, "admin", "", "", none⟩ [3] [5] true (fun _ _ => false) [] 10 =
        .ok (invites', log', fresh') ∧
      (invites'.map pairKey).Nodup ∧
      (∀ f ∈ [3], ∀ s ∈ [5],
        ∃ inv, findInvitation invites' f s = some inv ∧
          inv.email_sent =
            (((findInvitation ([] : List AvailabilityInvitation) f s).map
                (fun i => i.email_sent)).getD false || true)) :=
  invite_faculty_get_or_create ⟨1, "admin", "", "", none⟩ [3] [5] true
    (fun _ _ => false) [] 10 (by decide) (by decide) (by decide)
    (by simp) (by simp) (by simp)

end CSM
